import Mathlib

/-!
Verification development for the mosalloc-rs memory-region manager.

This file gives a shallow embedding of the core data structures and
operations of src/libmosalloc (region free-map management, the backing
loop, the interposer dispatch, and the internal allocator) and proves or
refutes the specified properties about them.

Machine integers (Rust usize) are modelled as Nat; where the Rust code
can overflow, the two-complement wrap of release builds is modelled
explicitly with mod 2^64 arithmetic (debug builds would panic there).
Rust Vec is modelled as List, mutation as functional update.  Fallible
paths (assert! in the source) are modelled with Except.
-/

namespace Mosalloc

/-- Word size of usize (64-bit Linux). -/
def WORD : Nat := 2 ^ 64

/-- usize::MAX, used by the source as the failure sentinel of
del_range_from_freemap and as MAP_FAILED. -/
def USIZE_MAX : Nat := 2 ^ 64 - 1

/-- utils/htlb.rs: PAGE_SIZE = 1 << 12. -/
def PAGE_SIZE : Nat := 4096

-- libc constants (x86-64 Linux values), as used by the source.
def MAP_SHARED : Nat := 0x01
def MAP_PRIVATE : Nat := 0x02
def MAP_SHARED_VALIDATE : Nat := 0x03
def MAP_FIXED : Nat := 0x10
def MAP_ANONYMOUS : Nat := 0x20
def MAP_GROWSDOWN : Nat := 0x0100
def MAP_HUGETLB : Nat := 0x40000
def MAP_FIXED_NOREPLACE : Nat := 0x100000
def MREMAP_MAYMOVE : Nat := 1
def MREMAP_FIXED : Nat := 2
def ENOMEM : Nat := 12
def EEXIST : Nat := 17

/-- allocator.rs: NONSTD_FLAGS = MAP_SHARED | MAP_SHARED_VALIDATE |
MAP_GROWSDOWN | MAP_HUGETLB. -/
def NONSTD_FLAGS : Nat :=
  MAP_SHARED ||| MAP_SHARED_VALIDATE ||| MAP_GROWSDOWN ||| MAP_HUGETLB

/-- Wrapping usize subtraction, the release-build semantics of a - b.
For a, b < 2^64 this equals (a - b) mod 2^64 in two-complement. -/
def wsub (a b : Nat) : Nat := (WORD + a - b) % WORD

/-- Wrapping usize addition. -/
def wadd (a b : Nat) : Nat := (a + b) % WORD

/-- utils/misc.rs align: n & !(m-1) is n - n % m for the power-of-two m
the source asserts; then round up by m if rounding changed n. -/
def align (n m : Nat) (up : Bool) : Nat :=
  let ret := n - n % m
  if up && ret != n then ret + m else ret

/-- utils/misc.rs align_up. -/
def align_up (n m : Nat) : Nat := align n m true

/-- utils/misc.rs align_down. -/
def align_down (n m : Nat) : Nat := align n m false

/-- Rust core::ops::Range of usize, the element type of the free map.
The second field is named end_ because end is a Lean keyword. -/
structure URange where
  start : Nat
  end_ : Nat
deriving DecidableEq, Repr

/-- Range::len - saturated like Nat subtraction, which matches the
source since Rust ExactSizeIterator::len of a usize range is
end - start clamped at 0 for backwards ranges. -/
def URange.len (r : URange) : Nat := r.end_ - r.start

/-- Range::contains for usize: start <= v < end. -/
def URange.containsB (r : URange) (v : Nat) : Bool :=
  r.start ≤ v && v < r.end_

/-- utils/htlb.rs Interval: page size plus start and end byte offsets
within the region. -/
structure Interval where
  pagesz : Nat
  start : Nat
  end_ : Nat
deriving DecidableEq, Repr

/-- utils/htlb.rs AllocType. -/
inductive AllocType
  | BRK
  | ANON
  | FILE
deriving DecidableEq, Repr

/-- region.rs Region.  The pool is represented by its interval list;
the lock and the analyze/len/max_pgsz bookkeeping fields do not affect
the operations modelled here and are omitted. -/
structure Region where
  alloc_type : AllocType
  intervals : List Interval
  start : Nat
  end_ : Nat
  max : Nat
  free_map : List URange
deriving DecidableEq, Repr

/-- Iterator::position over a list - index of the first element
satisfying p. -/
def pos? (p : URange → Bool) : List URange → Option Nat
  | [] => none
  | x :: xs => if p x then some 0 else (pos? p xs).map (· + 1)

/-- List insertion at an index (Vec::insert). -/
def insertAt (l : List URange) (i : Nat) (a : URange) : List URange :=
  l.take i ++ a :: l.drop i

/-- region.rs Region::del_range_from_freemap.  Returns the allocated
address (usize::MAX on failure) and the updated free map.  Note that
the source guard computes x.len() - start, subtracting the absolute
hint address from the length of the candidate range; for a nonzero
hint this wraps in release builds (and panics in debug builds), which
is modelled by wsub. -/
def del_range_from_freemap (fm : List URange) (start len : Nat) :
    Nat × List URange :=
  match pos? (fun x =>
      (start == 0 || x.containsB start) && decide (len ≤ wsub x.len start)) fm with
  | none => (USIZE_MAX, fm)
  | some ridx =>
    let r := fm.getD ridx ⟨0, 0⟩
    let range_start := r.start
    let fm' :=
      if r.len = len then
        fm.eraseIdx ridx
      else if start = 0 ∨ start = r.start then
        fm.set ridx ⟨r.start + len, r.end_⟩
      else
        insertAt (fm.set ridx ⟨r.start, start⟩) (ridx + 1) ⟨start + len, r.end_⟩
    (if start = 0 then range_start else start, fm')

/-- region.rs Region::add_range_to_freemap.  The sequential mutations
of the source (left merge, right merge, merge of both, plain insert)
are modelled as successive functional updates in source order. -/
def add_range_to_freemap (fm : List URange) (start len : Nat) : List URange :=
  let end_ := start + len
  if fm.isEmpty then [⟨start, end_⟩]
  else
    let idx := (pos? (fun x => decide (end_ ≤ x.start)) fm).getD fm.length
    let left := decide (0 < idx) && ((fm.getD (idx - 1) ⟨0, 0⟩).end_ == start)
    let fm1 :=
      if left then fm.set (idx - 1) ⟨(fm.getD (idx - 1) ⟨0, 0⟩).start, end_⟩ else fm
    let right := decide (idx < fm1.length) && ((fm1.getD idx ⟨0, 0⟩).start == end_)
    let fm2 :=
      if right then fm1.set idx ⟨start, (fm1.getD idx ⟨0, 0⟩).end_⟩ else fm1
    let fm3 :=
      if left && right then
        (fm2.set (idx - 1)
          ⟨(fm2.getD (idx - 1) ⟨0, 0⟩).start, (fm2.getD idx ⟨0, 0⟩).end_⟩).eraseIdx idx
      else fm2
    if !left && !right then insertAt fm3 idx ⟨start, end_⟩ else fm3

/-- region.rs Region::get_addr_pagesz: page size of the interval whose
offset band holds addr - start, base page size when none matches.
Note the inclusive comparison offset <= x.end_ of the source. -/
def Region.get_addr_pagesz (R : Region) (addr : Nat) : Nat :=
  let offset := addr - R.start
  (R.intervals.findSome? (fun x =>
    if x.start ≤ offset && offset ≤ x.end_ then some x.pagesz else none)).getD
    PAGE_SIZE

/-- One real-mmap backing call issued by Region::alloc: the tile
address (aligned down to its page size), the page size, and whether
MAP_HUGETLB with the size shift was included. -/
structure Tile where
  addr : Nat
  pagesz : Nat
  huge : Bool
deriving DecidableEq, Repr

/-- region.rs Region::alloc, reduced to the record of the real mmap
call it issues (MAP_FIXED_NOREPLACE is always added; an EEXIST result
is tolerated by the source, other failures are fatal). -/
def allocTile (addr pagesz : Nat) (dryrun : Bool) : Tile :=
  { addr := align_down addr pagesz
    pagesz := pagesz
    huge := decide (PAGE_SIZE < pagesz) && !dryrun }

/-- The backing loop of region.rs Region::alloc_range (lines 144-150):
while cur < endp, look up the page size for cur, align cur down to it,
issue the tile, advance by the page size.  fuel bounds the number of
iterations; since every iteration advances cur by at least one when
the page size is positive, fuel = endp - start iterations always
suffice and the fueled loop equals the source loop. -/
def Region.backLoop (R : Region) (dryrun : Bool) :
    Nat → Nat → Nat → List Tile
  | 0, _, _ => []
  | fuel + 1, cur, endp =>
    if cur < endp then
      let pagesz := R.get_addr_pagesz cur
      let cur' := align_down cur pagesz
      allocTile cur' pagesz dryrun :: R.backLoop dryrun fuel (cur' + pagesz) endp
    else []

/-- Result of Region::alloc_range: returned address, updated region,
and the list of backing tiles issued. -/
structure AllocOut where
  ret : Nat
  region : Region
  tiles : List Tile
deriving DecidableEq, Repr

/-- Tail of region.rs Region::alloc_range after an address has been
taken from the free map (lines 133-152): raise the end watermark,
skip backing for file regions, otherwise run the backing loop. -/
def Region.alloc_finish (R : Region) (start len : Nat) (dryrun : Bool) :
    Except String AllocOut :=
  let endp := start + len
  let R' := if endp > R.end_ then { R with end_ := endp } else R
  if R'.alloc_type = .FILE then .ok ⟨start, R', []⟩
  else .ok ⟨start, R', R'.backLoop dryrun len start endp⟩

/-- region.rs Region::alloc_range (lines 104-153).  The length is
rounded up to the base page size; the free map is consulted with the
hint; on failure the MAP_FIXED_NOREPLACE / MAP_FIXED / retry paths of
the source are followed.  Note that the MAP_FIXED assertion of the
source tests the local variable start - which is usize::MAX on this
path - rather than addr, and that usize::MAX + len wraps (wadd). -/
def Region.alloc_range (R : Region) (addr len flags : Nat) (dryrun : Bool) :
    Except String AllocOut :=
  let len := align_up len PAGE_SIZE
  let d1 := del_range_from_freemap R.free_map addr len
  if d1.1 = USIZE_MAX then
    if flags &&& MAP_FIXED_NOREPLACE ≠ 0 then
      .ok ⟨d1.1, { R with free_map := d1.2 }, []⟩
    else if flags &&& MAP_FIXED ≠ 0 then
      if R.free_map.all (fun x =>
          !x.containsB USIZE_MAX && !x.containsB (wadd USIZE_MAX len)) then
        .ok ⟨addr, { R with free_map := d1.2 }, []⟩
      else
        .error "assertion failed: MAP_FIXED free_map check"
    else
      let d2 := del_range_from_freemap d1.2 0 len
      if d2.1 = USIZE_MAX then .ok ⟨d2.1, { R with free_map := d2.2 }, []⟩
      else Region.alloc_finish { R with free_map := d2.2 } d2.1 len dryrun
  else Region.alloc_finish { R with free_map := d1.2 } d1.1 len dryrun

/-- region.rs Region::free_range: round the length up, give the range
back to the free map, and retract the end watermark to the start of
the last free range when the freed range was the top of the region. -/
def Region.free_range (R : Region) (start len : Nat) : Region :=
  let len := align_up len PAGE_SIZE
  let fm := add_range_to_freemap R.free_map start len
  let newEnd :=
    if R.end_ = start + len then
      match fm.getLast? with
      | some r => r.start
      | none => R.start
    else R.end_
  { R with free_map := fm, end_ := newEnd }

/-- region.rs Region::contains: start <= addr < max. -/
def Region.contains (R : Region) (addr : Nat) : Bool :=
  R.start ≤ addr && addr < R.max

/-- allocator.rs Allocator: the three regions plus the dryrun and
drained flags (the analyze flag is unused by the modelled paths). -/
structure Allocator where
  heap : Region
  anon_region : Region
  file_region : Region
  dryrun : Bool
  drained : Bool
deriving DecidableEq, Repr

/-- Which region a dispatch decision selected, standing in for the
mutable reference the source returns. -/
inductive RegionTag
  | heap
  | anon
  | file
deriving DecidableEq, Repr

/-- Read the region selected by a tag. -/
def Allocator.getRegion (A : Allocator) : RegionTag → Region
  | .heap => A.heap
  | .anon => A.anon_region
  | .file => A.file_region

/-- Write back the region selected by a tag. -/
def Allocator.setRegion (A : Allocator) : RegionTag → Region → Allocator
  | .heap, R => { A with heap := R }
  | .anon, R => { A with anon_region := R }
  | .file, R => { A with file_region := R }

/-- Syscall outcome for brk/sbrk: returned value, errno written (none
when left untouched), resulting allocator state. -/
structure SysOut where
  ret : Nat
  errno : Option Nat
  st : Allocator
deriving DecidableEq, Repr

/-- allocator.rs Allocator::do_brk after the drain gate (lines
146-168): compute newbrk from the address or the increment
(checked_add_signed - overflow panics, modelled as error), fail with
ENOMEM outside the heap, allocate on growth, free on shrink, return
the old break. -/
def Allocator.do_brk_core (A : Allocator) (addr : Option Nat)
    (incr : Option Int) : Except String SysOut :=
  let oldbrk := A.heap.end_
  let newbrk? : Except String Nat :=
    match addr with
    | some a => .ok a
    | none =>
      match incr with
      | none => .error "Option::unwrap on None"
      | some i =>
        let v : Int := (oldbrk : Int) + i
        if v < 0 ∨ (WORD : Int) ≤ v then .error "checked_add_signed overflow"
        else .ok v.toNat
  match newbrk? with
  | .error e => .error e
  | .ok newbrk =>
    if !A.heap.contains newbrk then
      .ok ⟨USIZE_MAX, some ENOMEM, A⟩
    else if newbrk > oldbrk then
      match A.heap.alloc_range oldbrk (newbrk - oldbrk)
          (MAP_ANONYMOUS ||| MAP_PRIVATE) A.dryrun with
      | .error e => .error e
      | .ok out => .ok ⟨oldbrk, none, { A with heap := out.region }⟩
    else if newbrk < oldbrk then
      .ok ⟨oldbrk, none, { A with heap := A.heap.free_range newbrk (oldbrk - newbrk) }⟩
    else
      .ok ⟨oldbrk, none, A⟩

/-- allocator.rs Allocator::do_brk (lines 140-169): before the drain
every call fails with usize::MAX and ENOMEM without touching any
region. -/
def Allocator.do_brk (A : Allocator) (addr : Option Nat) (incr : Option Int) :
    Except String SysOut :=
  if !A.drained then .ok ⟨USIZE_MAX, some ENOMEM, A⟩
  else A.do_brk_core addr incr

/-- allocator.rs Allocator::brk: -1 on do_brk failure, 0 otherwise. -/
def Allocator.brk (A : Allocator) (addr : Nat) :
    Except String (Int × Option Nat × Allocator) :=
  match A.do_brk (some addr) none with
  | .error e => .error e
  | .ok o => .ok (if o.ret = USIZE_MAX then -1 else 0, o.errno, o.st)

/-- allocator.rs Allocator::sbrk. -/
def Allocator.sbrk (A : Allocator) (incr : Int) : Except String SysOut :=
  A.do_brk none (some incr)

/-- allocator.rs Allocator::region_from_addr (lines 185-197): asserts
the address is not inside the managed heap, then selects the anon or
file region by containment, none when neither contains the address. -/
def Allocator.region_from_addr (A : Allocator) (addr : Nat) :
    Except String (Option RegionTag) :=
  if A.heap.contains addr then
    .error "assertion failed: !self.heap.contains(addr)"
  else if A.anon_region.contains addr then .ok (some .anon)
  else if A.file_region.contains addr then .ok (some .file)
  else .ok none

/-- allocator.rs Allocator::region_from_fd: anon for fd = -1, file
otherwise. -/
def Allocator.region_from_fd (_A : Allocator) (fd : Int) : RegionTag :=
  if fd = -1 then .anon else .file

/-- allocator.rs Allocator::region_from_req: fd-based choice for a
null address, containment-based choice otherwise. -/
def Allocator.region_from_req (A : Allocator) (addr : Nat) (fd : Int) :
    Except String (Option RegionTag) :=
  if addr = 0 then .ok (some (A.region_from_fd fd))
  else A.region_from_addr addr

/-- Result of an intercepted mmap: forwarded to the real syscall,
failed with MAP_FAILED plus an errno, or an address inside a managed
region. -/
inductive MmapRes
  | forwarded
  | failed (errno : Nat)
  | addr (a : Nat)
deriving DecidableEq, Repr

/-- Outcome of Allocator::mmap. -/
structure MmapOut where
  res : MmapRes
  st : Allocator
deriving DecidableEq, Repr

/-- allocator.rs Allocator::mmap after the drain gate (lines 248-276):
forward non-standard anon requests, assert the request does not span
past the region, allocate, translate failure to EEXIST or ENOMEM, and
forward file-region successes to the real mmap. -/
def Allocator.mmap_core (A : Allocator) (addr len flags : Nat)
    (rtag : RegionTag) : Except String MmapOut :=
  if (A.getRegion rtag).alloc_type = .ANON ∧ flags &&& NONSTD_FLAGS ≠ 0 then
    .ok ⟨.forwarded, A⟩
  else if ¬ (addr = 0 ∨ addr + len ≤ (A.getRegion rtag).max) then
    .error "assertion failed: addr == 0 || addr + len <= region.max"
  else
    match (A.getRegion rtag).alloc_range addr len flags A.dryrun with
    | .error e => .error e
    | .ok out =>
      let A' := A.setRegion rtag out.region
      if out.ret = USIZE_MAX then
        .ok ⟨.failed (if flags &&& MAP_FIXED_NOREPLACE ≠ 0 then EEXIST else ENOMEM), A'⟩
      else if (A.getRegion rtag).alloc_type = .FILE then
        .ok ⟨.forwarded, A'⟩
      else
        .ok ⟨.addr out.ret, A'⟩

/-- allocator.rs Allocator::mmap (lines 219-277): dispatch by address
and fd, forward when no region claims the request, fail anon requests
with ENOMEM before the drain, then run the main path. -/
def Allocator.mmap (A : Allocator) (addr len flags : Nat) (fd : Int) :
    Except String MmapOut :=
  match A.region_from_req addr fd with
  | .error e => .error e
  | .ok none => .ok ⟨.forwarded, A⟩
  | .ok (some rtag) =>
    if !A.drained ∧ (A.getRegion rtag).alloc_type = .ANON then
      .ok ⟨.failed ENOMEM, A⟩
    else A.mmap_core addr len flags rtag

/-- Result of an intercepted munmap / mprotect / madvise: forwarded to
the real syscall or returned directly. -/
inductive CallRes
  | forwarded
  | ret (v : Int)
deriving DecidableEq, Repr

/-- allocator.rs Allocator::munmap (lines 279-302). -/
def Allocator.munmap (A : Allocator) (addr len : Nat) :
    Except String (CallRes × Allocator) :=
  match A.region_from_addr addr with
  | .error e => .error e
  | .ok none => .ok (.forwarded, A)
  | .ok (some rtag) =>
    if ¬ (addr + len ≤ (A.getRegion rtag).max) then
      .error "assertion failed: addr + len <= region.max"
    else
      let A' := A.setRegion rtag ((A.getRegion rtag).free_range addr len)
      if (A.getRegion rtag).alloc_type = .FILE then .ok (.forwarded, A')
      else .ok (.ret 0, A')

/-- allocator.rs Allocator::mprotect (lines 304-314): forwarded
outside regions and for the file region, ignored (success) for heap
and anon regions. -/
def Allocator.mprotect (A : Allocator) (addr _len : Nat) (_prot : Nat) :
    Except String (CallRes × Allocator) :=
  match A.region_from_addr addr with
  | .error e => .error e
  | .ok none => .ok (.forwarded, A)
  | .ok (some rtag) =>
    if (A.getRegion rtag).alloc_type = .FILE then .ok (.forwarded, A)
    else .ok (.ret 0, A)

/-- allocator.rs Allocator::madvise (lines 316-327): same shape as
mprotect. -/
def Allocator.madvise (A : Allocator) (addr _len : Nat) (_advice : Nat) :
    Except String (CallRes × Allocator) :=
  match A.region_from_addr addr with
  | .error e => .error e
  | .ok none => .ok (.forwarded, A)
  | .ok (some rtag) =>
    if (A.getRegion rtag).alloc_type = .FILE then .ok (.forwarded, A)
    else .ok (.ret 0, A)

/-- Result of an intercepted mremap. -/
inductive MremapRes
  | forwarded
  | failed (errno : Nat)
  | addr (a : Nat)
deriving DecidableEq, Repr

/-- Tail of allocator.rs Allocator::mremap (lines 395-412): allocate
new_size at req_addr, fail with EEXIST when a fixed request could not
be honoured, otherwise return new_address as the source does. -/
def Allocator.mremap_tail (A : Allocator) (rtag : RegionTag)
    (req_addr new_size flags new_address : Nat) :
    Except String (MremapRes × Allocator) :=
  match (A.getRegion rtag).alloc_range req_addr new_size
      (MAP_ANONYMOUS ||| MAP_PRIVATE) A.dryrun with
  | .error e => .error e
  | .ok out =>
    let A' := A.setRegion rtag out.region
    if req_addr ≠ out.ret ∧ flags &&& MREMAP_FIXED ≠ 0 then
      .ok (.failed EEXIST, A')
    else .ok (.addr new_address, A')

/-- allocator.rs Allocator::mremap (lines 329-413).  Note the source
assertion at line 360 requires (flags & MREMAP_FIXED) != 0 - with a
conjunction, not an implication - so every in-region mremap without
MREMAP_FIXED fails the assertion before reaching the shrink and grow
paths below it. -/
def Allocator.mremap (A : Allocator)
    (old_address old_size new_size flags new_address : Nat) :
    Except String (MremapRes × Allocator) :=
  match A.region_from_addr old_address with
  | .error e => .error e
  | .ok none => .ok (.forwarded, A)
  | .ok (some rtag) =>
    if ¬ (flags &&& MREMAP_FIXED ≠ 0 ∧
        new_address + new_size ≤ (A.getRegion rtag).max) then
      .error "assertion failed: (flags & MREMAP_FIXED) != 0 && new_address + new_size <= region.max"
    else if flags &&& MREMAP_FIXED = 0 then
      if old_size ≥ new_size then
        .ok (.addr old_address,
          A.setRegion rtag
            ((A.getRegion rtag).free_range (old_address + new_size)
              (old_size - new_size)))
      else
        match (A.getRegion rtag).alloc_range (old_address + old_size)
            (new_size - old_size) (MAP_ANONYMOUS ||| MAP_PRIVATE) A.dryrun with
        | .error e => .error e
        | .ok out =>
          let A' := A.setRegion rtag out.region
          if out.ret = old_address + old_size then .ok (.addr old_address, A')
          else if out.ret ≠ USIZE_MAX then
            .error "assertion failed: assert_eq!(addr, usize::MAX)"
          else if flags &&& MREMAP_MAYMOVE = 0 then .ok (.failed ENOMEM, A')
          else A'.mremap_tail rtag 0 new_size flags new_address
    else A.mremap_tail rtag new_address new_size flags new_address

/-!  internal_allocator.rs  -/

/-- internal_allocator.rs constants. -/
def ARENA_SIZE : Nat := 256 * 1024
def MAX_SUPPORTED_ALIGN : Nat := 4096
def MMAP_THRESHOLD : Nat := 4096

/-- Result of InternalAllocator::alloc_helper: a null pointer, an
offset into the static arena, or a direct real-mmap allocation of the
given size (issued with MAP_ANONYMOUS | MAP_PRIVATE through the real
trampoline). -/
inductive IAllocRes
  | null
  | arena (offset : Nat)
  | mmapped (size : Nat)
deriving DecidableEq, Repr

/-- internal_allocator.rs InternalAllocator::alloc_helper (lines
70-105), as a function of the current watermark idx: reject alignment
above 4 KiB, serve size >= MMAP_THRESHOLD by the real mmap, otherwise
advance the arena watermark (the checked_add cannot overflow in Nat);
returns the result and the new watermark. -/
def alloc_helper (idx size al : Nat) : IAllocRes × Nat :=
  if al > MAX_SUPPORTED_ALIGN then (.null, idx)
  else if size ≥ MMAP_THRESHOLD then (.mmapped size, idx)
  else
    let aidx := align_up idx al
    let new_idx := aidx + size
    if new_idx > ARENA_SIZE then (.null, idx)
    else (.arena aidx, new_idx)

/-- Discriminator: did alloc_helper serve from the arena? -/
def isArena : IAllocRes → Bool
  | .arena _ => true
  | _ => false

/-!  Concrete instances used to evaluate the code at specific inputs.  -/

/-- A placed anon region whose plan tiles [0, 4 MiB) with 2 MiB pages
and [4 MiB, 8 MiB) with 4 KiB pages; region start 2^31 (2 MiB
aligned), entirely free. -/
def regionC1 : Region :=
  ⟨.ANON, [⟨2097152, 0, 4194304⟩, ⟨4096, 4194304, 8388608⟩],
    2147483648, 2147483648, 2155872256, [⟨2147483648, 2155872256⟩]⟩

/-- A freshly placed anon region of three base pages at 2^30. -/
def regionC3 : Region :=
  ⟨.ANON, [⟨4096, 0, 12288⟩], 1073741824, 1073741824, 1073754112,
    [⟨1073741824, 1073754112⟩]⟩

/-- A two-page region at 2^30 whose first page is allocated and whose
second page is free. -/
def regionC5a : Region :=
  ⟨.ANON, [⟨4096, 0, 8192⟩], 1073741824, 1073741824, 1073750016,
    [⟨1073745920, 1073750016⟩]⟩

/-- The same region entirely free. -/
def regionC5b : Region :=
  ⟨.ANON, [⟨4096, 0, 8192⟩], 1073741824, 1073741824, 1073750016,
    [⟨1073741824, 1073750016⟩]⟩

/-- A placed heap region: [2^30, 2^30 + 2 MiB), idle. -/
def heapW : Region :=
  ⟨.BRK, [⟨2097152, 0, 2097152⟩], 1073741824, 1073741824, 1075838976,
    [⟨1073741824, 1075838976⟩]⟩

/-- A placed anon region right above the heap with its first two pages
allocated. -/
def anonW : Region :=
  ⟨.ANON, [⟨4096, 0, 2097152⟩], 1075838976, 1075847168, 1077936128,
    [⟨1075847168, 1077936128⟩]⟩

/-- A placed file region above the anon region, entirely free. -/
def fileW : Region :=
  ⟨.FILE, [⟨4096, 0, 2097152⟩], 1077936128, 1077936128, 1080033280,
    [⟨1077936128, 1080033280⟩]⟩

/-- A drained allocator over the three regions above. -/
def allocDrained : Allocator := ⟨heapW, anonW, fileW, false, true⟩

/-- The same allocator before the drain. -/
def allocPre : Allocator := ⟨heapW, anonW, fileW, false, false⟩

/-- allocDrained after sbrk(+4096): heap watermark raised by one page,
one page taken from the heap free map. -/
def allocDrainedMid : Allocator :=
  ⟨⟨.BRK, [⟨2097152, 0, 2097152⟩], 1073741824, 1073745920, 1075838976,
      [⟨1073745920, 1075838976⟩]⟩, anonW, fileW, false, true⟩

/-!  Helper lemmas about the list primitives used by the free map.  -/

theorem pos?_append_one (p : URange → Bool) (l : List URange) (a : URange)
    (h : ∀ x ∈ l, p x = false) :
    pos? p (l ++ [a]) = if p a then some l.length else none := by
  induction l with
  | nil => cases hpa : p a <;> simp [pos?, hpa]
  | cons x xs ih =>
    have hx : p x = false := h x (by simp)
    have ih' := ih (fun y hy => h y (by simp [hy]))
    cases hpa : p a <;>
      simp [pos?, hx, ih', hpa]

theorem getD_append_one (l : List URange) (a d : URange) :
    (l ++ [a]).getD l.length d = a := by
  induction l with
  | nil => rfl
  | cons x xs _ih => simp [List.getD]

theorem getD_append_lt (l l2 : List URange) (n : Nat) (d : URange)
    (h : n < l.length) :
    (l ++ l2).getD n d = l.getD n d := by
  induction l generalizing n with
  | nil => simp at h
  | cons x xs ih =>
    cases n with
    | zero => rfl
    | succ m =>
      have : m < xs.length := by simpa using h
      simpa [List.getD] using ih m this

theorem getD_mem (l : List URange) (n : Nat) (d : URange) (h : n < l.length) :
    l.getD n d ∈ l := by
  induction l generalizing n with
  | nil => simp at h
  | cons x xs ih =>
    cases n with
    | zero => simp [List.getD]
    | succ m =>
      have : m < xs.length := by simpa using h
      simpa [List.getD] using Or.inr (ih m this)

theorem set_append_one (l : List URange) (a b : URange) :
    (l ++ [a]).set l.length b = l ++ [b] := by
  induction l with
  | nil => rfl
  | cons x xs _ih => simp

theorem isEmpty_append_one (l : List URange) (a : URange) :
    (l ++ [a]).isEmpty = false := by
  cases l <;> rfl

theorem getLast?_append_one (l : List URange) (a : URange) :
    (l ++ [a]).getLast? = some a := by
  simp

theorem align_up_of_mod_eq_zero (n m : Nat) (h : n % m = 0) :
    align_up n m = n := by
  simp [align_up, align, h]

/-- Taking [E, E+N) from a free map whose last range is [E, M), with
all other ranges wholly below E: the hinted range is found, the last
range is shrunk from the left, the hint is returned.  The guard
hypothesis is the release-build wrapping comparison of the source. -/
theorem del_at_watermark (init : List URange) (E M N : Nat)
    (hinit : ∀ r ∈ init, r.start < r.end_ ∧ r.end_ < E)
    (hE0 : 0 < E) (hEN : E + N < M)
    (hg : N ≤ wsub (M - E) E) :
    del_range_from_freemap (init ++ [⟨E, M⟩]) E N = (E, init ++ [⟨E + N, M⟩]) := by
  have hp : ∀ x ∈ init,
      ((E == 0 || x.containsB E) && decide (N ≤ wsub x.len E)) = false := by
    intro x hx
    have h2 := (hinit x hx).2
    have hc : x.containsB E = false := by
      simp only [URange.containsB, Bool.and_eq_false_iff]
      right
      simp only [decide_eq_false_iff_not, not_lt]
      omega
    have hE : (E == 0) = false := by
      simp only [beq_eq_false_iff_ne, ne_eq]
      omega
    simp [hE, hc]
  have hpa : ((E == 0 || URange.containsB ⟨E, M⟩ E) &&
      decide (N ≤ wsub (URange.len ⟨E, M⟩) E)) = true := by
    have hc : URange.containsB ⟨E, M⟩ E = true := by
      simp only [URange.containsB, Bool.and_eq_true, decide_eq_true_eq]
      omega
    have hl : URange.len ⟨E, M⟩ = M - E := rfl
    simp [hc, hl, hg]
  unfold del_range_from_freemap
  rw [pos?_append_one _ _ _ hp]
  simp only [hpa, if_true]
  rw [getD_append_one]
  have hne : URange.len ⟨E, M⟩ ≠ N := by
    simp only [URange.len, ne_eq]
    omega
  rw [if_neg hne, if_pos (Or.inr rfl), set_append_one]
  have hEne : E ≠ 0 := by omega
  rw [if_neg hEne]

/-- Giving [E, E+N) back to a free map whose last range is [E+N, M),
with all other ranges wholly below E: the range merges with its right
neighbour and the map returns to last range [E, M). -/
theorem add_at_watermark (init : List URange) (E M N : Nat)
    (hinit : ∀ r ∈ init, r.start < r.end_ ∧ r.end_ < E)
    (hN0 : 0 < N) :
    add_range_to_freemap (init ++ [⟨E + N, M⟩]) E N = init ++ [⟨E, M⟩] := by
  unfold add_range_to_freemap
  rw [isEmpty_append_one]
  simp only [Bool.false_eq_true, if_false]
  have hpi : ∀ x ∈ init, decide (E + N ≤ x.start) = false := by
    intro x hx
    have := hinit x hx
    simp only [decide_eq_false_iff_not, not_le]
    omega
  have hidx : pos? (fun x => decide (E + N ≤ x.start)) (init ++ [⟨E + N, M⟩]) =
      some init.length := by
    rw [pos?_append_one _ _ _ hpi]
    simp
  rw [hidx]
  simp only [Option.getD_some]
  have hleft : (decide (0 < init.length) &&
      (URange.end_ ((init ++ [⟨E + N, M⟩] : List URange).getD (init.length - 1) ⟨0, 0⟩) == E)) = false := by
    cases init with
    | nil => simp
    | cons x xs =>
      have hlt : (x :: xs).length - 1 < (x :: xs).length := by simp
      rw [getD_append_lt _ _ _ _ hlt]
      have hm : (x :: xs).getD ((x :: xs).length - 1) ⟨0, 0⟩ ∈ x :: xs :=
        getD_mem _ _ _ hlt
      have h2 := (hinit _ hm).2
      simp only [Bool.and_eq_false_iff, beq_eq_false_iff_ne, ne_eq]
      right
      omega
  rw [hleft]
  simp only [Bool.false_eq_true, if_false, Bool.false_and, Bool.not_false,
    Bool.true_and]
  have hlen : init.length < (init ++ [⟨E + N, M⟩] : List URange).length := by
    simp
  have hright : (decide (init.length < (init ++ [⟨E + N, M⟩] : List URange).length) &&
      (URange.start ((init ++ [⟨E + N, M⟩] : List URange).getD init.length ⟨0, 0⟩) == E + N)) = true := by
    rw [getD_append_one]
    simp [hlen]
  rw [hright]
  simp only [if_true]
  rw [getD_append_one, set_append_one]
  simp

/-- alloc_finish always succeeds and, when the new end is above the
watermark, raises it; the tile list depends on the region kind but the
address and state do not. -/
theorem alloc_finish_shape (R : Region) (s l : Nat) (d : Bool)
    (h : R.end_ < s + l) :
    ∃ t, R.alloc_finish s l d = .ok ⟨s, { R with end_ := s + l }, t⟩ := by
  unfold Region.alloc_finish
  by_cases hf : R.alloc_type = .FILE <;> simp [hf, h]

/-!  Claim theorems.  -/

/-- C1: evaluation of the backing loop at an interval boundary.  With a
plan of 2 MiB pages on [0, 4 MiB) and 4 KiB pages on [4 MiB, 8 MiB), a
5 MiB allocation at the region start issues three 2 MiB huge tiles;
the third tile sits at offset 4 MiB and covers bytes (such as offset
4 MiB + 4 KiB) whose plan page size is the 4 KiB base page size, so a
byte lying in a base-page-size interval of the plan is mapped as part
of a huge-page tile, contrary to the claim. -/
theorem C1_huge_tile_over_base_interval :
    regionC1.alloc_range 2147483648 5242880 (MAP_ANONYMOUS ||| MAP_PRIVATE) false =
      .ok ⟨2147483648,
        ⟨.ANON, [⟨2097152, 0, 4194304⟩, ⟨4096, 4194304, 8388608⟩],
          2147483648, 2152726528, 2155872256, [⟨2152726528, 2155872256⟩]⟩,
        [⟨2147483648, 2097152, true⟩, ⟨2149580800, 2097152, true⟩,
          ⟨2151677952, 2097152, true⟩]⟩ ∧
    regionC1.get_addr_pagesz 2151682048 = 4096 ∧
    2151677952 ≤ 2151682048 ∧ 2151682048 < 2151677952 + 2097152 := by
  refine ⟨rfl, rfl, by decide, by decide⟩

/-- C2: evaluation of take at a hint whose range [hint, hint+len) is
not contained in any free range.  The free map holds only
[0x10000, 0x14000); the request take(0x13000, 0x2000) reaches past the
range end, yet the wrapped guard accepts it: the call returns the hint
and splits the range, leaving the map changed (with a corrupt
backwards second range), contrary to the claim that take succeeds at a
nonzero hint only when the whole range is free and fails leaving the
map unchanged otherwise. -/
theorem C2_take_containment_violated :
    del_range_from_freemap [⟨65536, 81920⟩] 77824 8192 =
      (77824, [⟨65536, 77824⟩, ⟨86016, 81920⟩]) ∧
    URange.containsB ⟨65536, 81920⟩ 77824 = true ∧
    81920 < 77824 + 8192 := by
  refine ⟨rfl, by decide, by decide⟩

/-- C3: a single legitimate alloc_range on a freshly placed region can
leave a zero-length range in the free map.  Allocating the middle two
pages of a three-page region, with the allocation end co-inciding with
the free-range end, splits [start, max) into [start, start+4K) and the
empty range [max, max), so the free map does not stay free of
zero-length ranges, contrary to the claim. -/
theorem C3_zero_length_range_created :
    regionC3.alloc_range 1073745920 8192 (MAP_ANONYMOUS ||| MAP_PRIVATE) false =
      .ok ⟨1073745920,
        ⟨.ANON, [⟨4096, 0, 12288⟩], 1073741824, 1073754112, 1073754112,
          [⟨1073741824, 1073745920⟩, ⟨1073754112, 1073754112⟩]⟩,
        [⟨1073745920, 4096, false⟩, ⟨1073750016, 4096, false⟩]⟩ ∧
    URange.len ⟨1073754112, 1073754112⟩ = 0 := by
  refine ⟨rfl, rfl⟩

/-- C4: an in-region mremap with MREMAP_FIXED clear - the claimed
in-place shrink, old_size 8 KiB to new_size 4 KiB at the anon region
start - aborts on the source assertion requiring
(flags & MREMAP_FIXED) != 0 instead of freeing the tail and returning
the old address. -/
theorem C4_mremap_shrink_assert_aborts :
    allocDrained.mremap 1075838976 8192 4096 0 0 =
      .error "assertion failed: (flags & MREMAP_FIXED) != 0 && new_address + new_size <= region.max" := by
  rfl

/-- C5: the MAP_FIXED fallback does not check the hint range.  With
only [hint+4K, hint+8K) free, alloc_range(hint, 8K, MAP_FIXED) fails
to take the range, and the source assertion - which tests the local
sentinel usize::MAX rather than the hint - passes, so the call
succeeds returning the hint with the region unchanged even though
part of [hint, hint+8K) lies in the free map; and with the whole of
[hint, hint+8K) free, the MAP_FIXED call succeeds by taking the range
rather than failing. -/
theorem C5_map_fixed_assert_vacuous :
    regionC5a.alloc_range 1073741824 8192 MAP_FIXED false =
      .ok ⟨1073741824, regionC5a, []⟩ ∧
    URange.containsB ⟨1073745920, 1073750016⟩ 1073745920 = true ∧
    regionC5b.alloc_range 1073741824 8192 MAP_FIXED false =
      .ok ⟨1073741824,
        ⟨.ANON, [⟨4096, 0, 8192⟩], 1073741824, 1073750016, 1073750016, []⟩,
        [⟨1073741824, 4096, false⟩, ⟨1073745920, 4096, false⟩]⟩ := by
  refine ⟨rfl, by decide, rfl⟩

/-- C6: on a drained allocator whose heap free map is a list of ranges
wholly below the watermark followed by the final range
[end, max), a page-multiple sbrk(+N) that fits strictly below max
takes [end, end+N) from the final range and returns the old break, and
the following sbrk(-N) gives it back, merges it with the final range
and retracts the watermark, restoring the allocator exactly.  The
guard hypothesis is the wrapping comparison the source evaluates when
taking at the watermark hint. -/
theorem C6_sbrk_roundtrip (A : Allocator) (init : List URange) (N : Nat)
    (hd : A.drained = true)
    (hfm : A.heap.free_map = init ++ [⟨A.heap.end_, A.heap.max⟩])
    (hinit : ∀ r ∈ init, r.start < r.end_ ∧ r.end_ < A.heap.end_)
    (hN0 : 0 < N) (hNp : N % PAGE_SIZE = 0)
    (hfit : A.heap.end_ + N < A.heap.max)
    (hW : A.heap.max < WORD)
    (hS0 : 0 < A.heap.start) (hSE : A.heap.start ≤ A.heap.end_)
    (hguard : N ≤ wsub (A.heap.max - A.heap.end_) A.heap.end_) :
    A.sbrk (N : Int) =
      .ok ⟨A.heap.end_, none,
        { A with heap := { A.heap with
                             end_ := A.heap.end_ + N,
                             free_map := init ++ [⟨A.heap.end_ + N, A.heap.max⟩] } }⟩ ∧
    Allocator.sbrk
      { A with heap := { A.heap with
                           end_ := A.heap.end_ + N,
                           free_map := init ++ [⟨A.heap.end_ + N, A.heap.max⟩] } }
      (-(N : Int)) =
      .ok ⟨A.heap.end_ + N, none, A⟩ := by
  obtain ⟨heap, anon, file, dry, dr⟩ := A
  obtain ⟨ty, ivs, S, E, M, fm⟩ := heap
  simp only at hd hfm hinit hfit hW hS0 hSE hguard ⊢
  subst hd
  subst hfm
  simp only [WORD] at hW
  have hEM : E < M := by omega
  have hEmax : E ≠ USIZE_MAX := by simp only [USIZE_MAX]; omega
  constructor
  · unfold Allocator.sbrk Allocator.do_brk Allocator.do_brk_core
    simp only [Bool.not_true, Bool.false_eq_true, if_false]
    have hv : ¬ (((E : Int) + (N : Int) < 0) ∨ ((WORD : Int) ≤ (E : Int) + (N : Int))) := by
      simp only [WORD]
      push_cast
      omega
    simp only [hv, if_false]
    have ht : ((E : Int) + (N : Int)).toNat = E + N := by omega
    simp only [ht]
    have hcont : Region.contains ⟨ty, ivs, S, E, M, init ++ [⟨E, M⟩]⟩ (E + N) = true := by
      simp only [Region.contains]
      simp
      omega
    simp only [hcont, Bool.not_true, Bool.false_eq_true, if_false]
    have hgt : E + N > E := by omega
    simp only [hgt, if_true]
    unfold Region.alloc_range
    simp only [Nat.add_sub_cancel_left]
    simp only [align_up_of_mod_eq_zero _ _ hNp]
    simp only [del_at_watermark init E M N hinit (by omega) hfit hguard]
    obtain ⟨t, ht2⟩ := alloc_finish_shape ⟨ty, ivs, S, E, M, init ++ [⟨E + N, M⟩]⟩ E N dry
      (by simp only []; omega)
    simp only [hEmax, if_false, ht2]
  · unfold Allocator.sbrk Allocator.do_brk Allocator.do_brk_core
    simp only [Bool.not_true, Bool.false_eq_true, if_false]
    have hv : ¬ ((((E + N : Nat) : Int) + -(N : Int) < 0) ∨
        ((WORD : Int) ≤ ((E + N : Nat) : Int) + -(N : Int))) := by
      simp only [WORD]
      push_cast
      omega
    simp only [hv, if_false]
    have ht : (((E + N : Nat) : Int) + -(N : Int)).toNat = E := by omega
    simp only [ht]
    have hcont : Region.contains ⟨ty, ivs, S, E + N, M, init ++ [⟨E + N, M⟩]⟩ E = true := by
      simp only [Region.contains]
      simp
      omega
    simp only [hcont, Bool.not_true, Bool.false_eq_true, if_false]
    have hng : ¬ (E > E + N) := by omega
    have hlt : E < E + N := by omega
    simp only [hng, if_false, hlt, if_true]
    unfold Region.free_range
    simp only [Nat.add_sub_cancel_left]
    simp only [align_up_of_mod_eq_zero _ _ hNp]
    simp only [add_at_watermark init E M N hinit hN0]
    simp only [getLast?_append_one]
    simp

/-- C6 witness: the round trip evaluated on a concrete drained
allocator with an idle heap at 2^30 and N = 4096. -/
theorem C6_sbrk_roundtrip_witness :
    allocDrained.sbrk 4096 = .ok ⟨1073741824, none, allocDrainedMid⟩ ∧
    allocDrainedMid.sbrk (-4096) = .ok ⟨1073745920, none, allocDrained⟩ := by
  have h := C6_sbrk_roundtrip allocDrained [] 4096 rfl rfl (by simp)
    (by decide) (by decide) (by decide) (by decide) (by decide) (by decide) (by decide)
  exact ⟨h.1, h.2⟩

/-- C7: the drain flag gates brk, sbrk and anon-region mmap.  Before
the drain each of these paths returns its failure sentinel (usize::MAX
for do_brk and sbrk, -1 for brk, MAP_FAILED represented by the failed
result) with errno ENOMEM and leaves the allocator unchanged; once
drained = true the gate passes and the calls reduce to the ungated
continuations do_brk_core and mmap_core. -/
theorem C7_drain_gate (A : Allocator) (a : Option Nat) (i : Option Int)
    (i2 : Int) (baddr addr len flags : Nat) (fd : Int)
    (hty : A.anon_region.alloc_type = .ANON)
    (han : (addr = 0 ∧ fd = -1) ∨
      (addr ≠ 0 ∧ A.heap.contains addr = false ∧
        A.anon_region.contains addr = true)) :
    (A.drained = false →
      A.do_brk a i = .ok ⟨USIZE_MAX, some ENOMEM, A⟩ ∧
      A.brk baddr = .ok (-1, some ENOMEM, A) ∧
      A.sbrk i2 = .ok ⟨USIZE_MAX, some ENOMEM, A⟩ ∧
      A.mmap addr len flags fd = .ok ⟨.failed ENOMEM, A⟩) ∧
    (A.drained = true →
      A.do_brk a i = A.do_brk_core a i ∧
      A.mmap addr len flags fd = A.mmap_core addr len flags .anon) := by
  have hreq : A.region_from_req addr fd = .ok (some .anon) := by
    rcases han with ⟨h0, hfd⟩ | ⟨h0, hh, ha⟩
    · subst h0
      simp [Allocator.region_from_req, Allocator.region_from_fd, hfd]
    · simp [Allocator.region_from_req, Allocator.region_from_addr, h0, hh, ha]
  constructor
  · intro hdf
    refine ⟨?_, ?_, ?_, ?_⟩
    · simp [Allocator.do_brk, hdf]
    · simp [Allocator.brk, Allocator.do_brk, hdf]
    · simp [Allocator.sbrk, Allocator.do_brk, hdf]
    · simp [Allocator.mmap, hreq, hdf, Allocator.getRegion, hty]
  · intro hdt
    refine ⟨?_, ?_⟩
    · simp [Allocator.do_brk, hdt]
    · simp [Allocator.mmap, hreq, hdt, Allocator.getRegion, hty]

/-- C7 witness: the pre-drain allocator fails sbrk(+4096) and an
anon mmap request with ENOMEM, unchanged. -/
theorem C7_drain_gate_witness :
    allocPre.do_brk none (some 4096) = .ok ⟨USIZE_MAX, some ENOMEM, allocPre⟩ ∧
    allocPre.mmap 0 4096 (MAP_ANONYMOUS ||| MAP_PRIVATE) (-1) =
      .ok ⟨.failed ENOMEM, allocPre⟩ := by
  have h := (C7_drain_gate allocPre none (some 4096) 4096 0 0 4096
    (MAP_ANONYMOUS ||| MAP_PRIVATE) (-1) rfl (Or.inl ⟨rfl, rfl⟩)).1 rfl
  exact ⟨h.1, h.2.2.2⟩

/-- C8: take followed by give is not the identity on the free map.
With the single free range [4096, 8192), take(6144, 4096) is accepted
by the wrapped guard, matches the whole-range case because the range
length equals the request length, deletes the entire range and returns
the hint; the following give(6144, 4096) then records [6144, 10240),
which differs from the prior map. -/
theorem C8_take_give_not_identity :
    del_range_from_freemap [⟨4096, 8192⟩] 6144 4096 = (6144, []) ∧
    add_range_to_freemap [] 6144 4096 = [⟨6144, 10240⟩] ∧
    ([⟨6144, 10240⟩] : List URange) ≠ [⟨4096, 8192⟩] := by
  refine ⟨rfl, rfl, by decide⟩

/-- C9 counterexample: a request of size exactly 4 KiB with alignment
8 is served by the real mmap, not from the arena, and the watermark
does not move - the boundary case contradicts the claim that size up
to and including 4 KiB is served from the arena. -/
theorem C9_size_threshold_counterexample :
    alloc_helper 0 4096 8 = (.mmapped 4096, 0) ∧
    isArena (alloc_helper 0 4096 8).1 = false := by
  refine ⟨rfl, rfl⟩

/-- C9 amended: with alignment at most 4 KiB, a request of size
strictly below 4 KiB is served from the static arena by advancing the
monotonic watermark when the aligned watermark plus the size fits the
arena (null when it does not), while a request of size at least 4 KiB
is served by calling the real mmap directly; larger-than-4-KiB
alignment requests fail with a null return. -/
theorem C9_alloc_helper_spec (idx size al : Nat) :
    (MAX_SUPPORTED_ALIGN < al → alloc_helper idx size al = (.null, idx)) ∧
    (al ≤ MAX_SUPPORTED_ALIGN → MMAP_THRESHOLD ≤ size →
      alloc_helper idx size al = (.mmapped size, idx)) ∧
    (al ≤ MAX_SUPPORTED_ALIGN → size < MMAP_THRESHOLD →
      align_up idx al + size ≤ ARENA_SIZE →
      alloc_helper idx size al = (.arena (align_up idx al), align_up idx al + size)) ∧
    (al ≤ MAX_SUPPORTED_ALIGN → size < MMAP_THRESHOLD →
      ARENA_SIZE < align_up idx al + size →
      alloc_helper idx size al = (.null, idx)) := by
  refine ⟨?_, ?_, ?_, ?_⟩
  · intro h
    simp [alloc_helper, h]
  · intro h1 h2
    have hn : ¬ (al > MAX_SUPPORTED_ALIGN) := by omega
    simp [alloc_helper, hn, h2]
  · intro h1 h2 h3
    have hn : ¬ (al > MAX_SUPPORTED_ALIGN) := by omega
    have hn2 : ¬ (size ≥ MMAP_THRESHOLD) := by omega
    have hn3 : ¬ (align_up idx al + size > ARENA_SIZE) := by omega
    simp [alloc_helper, hn, hn2, hn3]
  · intro h1 h2 h3
    have hn : ¬ (al > MAX_SUPPORTED_ALIGN) := by omega
    have hn2 : ¬ (size ≥ MMAP_THRESHOLD) := by omega
    have h3' : align_up idx al + size > ARENA_SIZE := h3
    simp [alloc_helper, hn, hn2, h3']

/-- C9 witness: a 64-byte request with alignment 8 at watermark 0 is
served from the arena at offset 0, advancing the watermark to 64. -/
theorem C9_alloc_helper_spec_witness :
    alloc_helper 0 64 8 = (.arena 0, 64) := by
  have h := (C9_alloc_helper_spec 0 64 8).2.2.1 (by decide) (by decide) (by decide)
  exact h

/-- C10: any intercepted munmap, mprotect, madvise or mremap at an
address inside the managed heap, and any mmap with a nonzero hint
inside the managed heap, runs into the region_from_addr assertion
!heap.contains(addr) and aborts instead of being serviced or
forwarded. -/
theorem C10_heap_address_aborts (A : Allocator)
    (addr len old_size new_size flags new_address prot advice : Nat) (fd : Int)
    (h : A.heap.contains addr = true) (h0 : addr ≠ 0) :
    A.munmap addr len = .error "assertion failed: !self.heap.contains(addr)" ∧
    A.mprotect addr len prot = .error "assertion failed: !self.heap.contains(addr)" ∧
    A.madvise addr len advice = .error "assertion failed: !self.heap.contains(addr)" ∧
    A.mremap addr old_size new_size flags new_address =
      .error "assertion failed: !self.heap.contains(addr)" ∧
    A.mmap addr len flags fd = .error "assertion failed: !self.heap.contains(addr)" := by
  have hra : A.region_from_addr addr =
      .error "assertion failed: !self.heap.contains(addr)" := by
    simp [Allocator.region_from_addr, h]
  refine ⟨?_, ?_, ?_, ?_, ?_⟩
  · simp [Allocator.munmap, hra]
  · simp [Allocator.mprotect, hra]
  · simp [Allocator.madvise, hra]
  · simp [Allocator.mremap, hra]
  · simp [Allocator.mmap, Allocator.region_from_req, h0, hra]

/-- C10 witness: the aborts evaluated at a concrete heap-interior
address of the drained allocator. -/
theorem C10_heap_address_aborts_witness :
    allocDrained.munmap 1073745920 4096 =
      .error "assertion failed: !self.heap.contains(addr)" ∧
    allocDrained.mmap 1073745920 4096 0 (-1) =
      .error "assertion failed: !self.heap.contains(addr)" := by
  have h := C10_heap_address_aborts allocDrained 1073745920 4096 4096 4096 0 0 0 0
    (-1) (by decide) (by decide)
  exact ⟨h.1, h.2.2.2.2⟩

end Mosalloc
